import Mathlib

/-!
Verification of the extraction / grouping / template-projection core of
`form_generator.py` (class `SimpleExcelGenerator`).

The Python code is shallowly embedded:

* a pandas row (`pd.Series`) becomes `Row := List (String × Option String)` —
  the ordered column names paired with their values, `none` modelling a
  missing (`NaN`) cell, so `pd.notna v` becomes `v.isSome`;
* `re.search(r'Asset\s+(\d+)', col, re.IGNORECASE)` and
  `re.search(rf'\bAsset\s+{num}\b', col, re.IGNORECASE)` are implemented
  directly as left-to-right scans over the lower-cased character list,
  with Python's word-boundary `\b` spelled out (`\w` is taken as ASCII
  alphanumeric or underscore, which covers every header the program
  handles);
* `str.strip` / `str.lower` / `str.split` / `str.replace` are re-implemented
  on `List Char` (ASCII whitespace), so that every definition reduces by
  kernel computation;
* `datetime.now().year` is passed in explicitly as a `nowYear : Nat`
  parameter, and the Excel template's `E1` cell content as an
  `Option String` parameter;
* `openpyxl` cell assignments become an ordered list of
  `(CellRef × CellVal)` writes.
-/

namespace FormGen

/-- Python's `\s` for the inputs at hand (ASCII whitespace). -/
def pyIsSpace (c : Char) : Bool :=
  c = ' ' || c = '\t' || c = '\n' || c = '\r' || c = '\x0b' || c = '\x0c'

/-- Python's `\w` (word character) restricted to ASCII: letters, digits, underscore. -/
def isWordChar (c : Char) : Bool :=
  c.isAlphanum || c = '_'

/-- Python's `str.lower` on a character list (ASCII case folding, as in the headers handled). -/
def lowerL (cs : List Char) : List Char :=
  cs.map Char.toLower

/-- Substring containment on character lists: `needle in hay` for Python strings. -/
def containsL (needle : List Char) : List Char → Bool
  | [] => needle.isEmpty
  | c :: t => needle.isPrefixOf (c :: t) || containsL needle t

/-- Python's `needle in col.lower()` where `needle` is already lower-case. -/
def containsCI (needle : String) (s : String) : Bool :=
  containsL needle.data (lowerL s.data)

/-- Python's `str.strip()` (ASCII whitespace on both ends). -/
def pyStrip (cs : List Char) : List Char :=
  ((cs.dropWhile pyIsSpace).reverse.dropWhile pyIsSpace).reverse

/-- String-level wrapper for `pyStrip`. -/
def strip (s : String) : String :=
  ⟨pyStrip s.data⟩

/-- The decimal digit characters used when interpolating an `int` into an f-string. -/
def digitChar : Nat → Char
  | 0 => '0' | 1 => '1' | 2 => '2' | 3 => '3' | 4 => '4'
  | 5 => '5' | 6 => '6' | 7 => '7' | 8 => '8' | _ => '9'

/-- Decimal rendering of a natural number, structurally recursive on a fuel
argument so that it reduces by kernel computation (`natDigits` always supplies
enough fuel). -/
def natDigitsAux : Nat → Nat → List Char → List Char
  | 0, n, acc => digitChar n :: acc
  | fuel + 1, n, acc =>
    if n < 10 then digitChar n :: acc
    else natDigitsAux fuel (n / 10) (digitChar (n % 10) :: acc)

/-- Decimal rendering of a natural number (how `{num}` appears in
`rf'\bAsset\s+{num}\b'`). -/
def natDigits (n : Nat) : List Char :=
  natDigitsAux n n []

/-- Value of a digit string, as computed by Python's `int(...)` on the capture group. -/
def digitsVal (cs : List Char) : Nat :=
  cs.foldl (fun a c => 10 * a + (c.toNat - 48)) 0

/-- One attempted match of `Asset\s+(\d+)` (case-insensitively: the haystack is
already lower-cased) anchored at the head of `cs`: the literal `asset`, at least
one whitespace character, then a greedy digit run, whose value is returned. -/
def numHere (cs : List Char) : Option Nat :=
  if "asset".data.isPrefixOf cs then
    let rest := cs.drop 5
    let sp := rest.takeWhile pyIsSpace
    let ds := (rest.dropWhile pyIsSpace).takeWhile Char.isDigit
    if sp.isEmpty || ds.isEmpty then none else some (digitsVal ds)
  else none

/-- Model of `re.search(r'Asset\s+(\d+)', col, re.IGNORECASE)` on the lower-cased column
name: leftmost match wins, returning `int` of the digit group. -/
def searchAssetNum : List Char → Option Nat
  | [] => none
  | c :: t =>
    match numHere (c :: t) with
    | some n => some n
    | none => searchAssetNum t

/-- Word boundary `\b` immediately before a word character, given the previous
character (`none` at the start of the string). -/
def bdryOk : Option Char → Bool
  | none => true
  | some c => !isWordChar c

/-- One attempted match of `\bAsset\s+{num}\b` anchored at the head of `cs`
(the `\b` before `Asset` is checked by the caller): literal `asset`, at least
one whitespace character, the decimal digits `numStr`, then a word boundary. -/
def slotHere (numStr : List Char) (cs : List Char) : Bool :=
  "asset".data.isPrefixOf cs &&
    (let rest := cs.drop 5
     let rest2 := rest.dropWhile pyIsSpace
     !(rest.takeWhile pyIsSpace).isEmpty && numStr.isPrefixOf rest2 &&
       bdryOk ((rest2.drop numStr.length).head?))

/-- Scan for `\bAsset\s+{num}\b` carrying the previous character for the `\b` test. -/
def slotSearch (numStr : List Char) : Option Char → List Char → Bool
  | _, [] => false
  | prev, c :: t => (bdryOk prev && slotHere numStr (c :: t)) || slotSearch numStr (some c) t

/-- Model of `re.search(rf'\bAsset\s+{num}\b', col, re.IGNORECASE)` as a Boolean test. -/
def slotMatchCol (num : Nat) (col : String) : Bool :=
  slotSearch (natDigits num) none (lowerL col.data)

/-- A position where `asset` + whitespace + some digit begins (with `\b` before):
every `\bAsset\s+{n}\b` match starts at such an anchor, whatever `n` is. -/
def anchorHere (cs : List Char) : Bool :=
  "asset".data.isPrefixOf cs &&
    (let rest := cs.drop 5
     !(rest.takeWhile pyIsSpace).isEmpty &&
       (match (rest.dropWhile pyIsSpace).head? with
        | some d => d.isDigit
        | none => false))

/-- Number of anchor positions in a string; a header column is unambiguous when
it has at most one. -/
def anchorCount : Option Char → List Char → Nat
  | _, [] => 0
  | prev, c :: t =>
    (if bdryOk prev && anchorHere (c :: t) then 1 else 0) + anchorCount (some c) t

/-! ## Record extraction (`extract_assets_from_row`, lines 169–264) -/

/-- One row of the CSV: ordered `(column name, value)` pairs, `none` = `NaN`. -/
abbrev Row := List (String × Option String)

/-- One extracted asset: the dictionary `{'no': …, 'jenis': …, 'foto': …}`. -/
structure Asset where
  no : String
  jenis : String
  foto : String
deriving Repr, DecidableEq

/-- Insert into an ascending duplicate-free list: models accumulating into the
Python `set` `asset_numbers` followed by `sorted(...)`. -/
def insertSorted (n : Nat) : List Nat → List Nat
  | [] => [n]
  | m :: t =>
    if n < m then n :: m :: t
    else if n = m then m :: t
    else m :: insertSorted n t

/-- Lines 175–182: collect `sorted(asset_numbers)` — every slot number matched by
`Asset\s+(\d+)` in a column whose name contains neither `upload` nor `foto`. -/
def discoverNums (columns : List String) : List Nat :=
  columns.foldl
    (fun acc col =>
      if !containsCI "upload" col && !containsCI "foto" col then
        match searchAssetNum (lowerL col.data) with
        | some n => insertSorted n acc
        | none => acc
      else acc)
    []

/-- The three mutable locals of the per-slot loop (lines 186–188). -/
structure SlotAcc where
  no_asset : Option String
  jenis : Option String
  foto : Option String
deriving Repr, DecidableEq

/-- Line 197's keyword test: `'no' in col_lower and 'upload' not in col_lower and
'foto' not in col_lower`, on the lower-cased column characters. -/
def isIdCol (cl : List Char) : Bool :=
  containsL "no".data cl && !containsL "upload".data cl && !containsL "foto".data cl

/-- Line 200's value test for the id column: non-NaN, non-empty once stripped,
and `str(value)` (unstripped) does not start with `http`. -/
def usableId : Option String → Bool
  | some v => !(pyStrip v.data).isEmpty && !"http".data.isPrefixOf v.data
  | none => false

/-- Lines 206/212: non-NaN and non-empty once stripped. -/
def usableVal : Option String → Bool
  | some v => !(pyStrip v.data).isEmpty
  | none => false

/-- The body of the column loop for one slot (lines 191–213): a column matching
`\bAsset\s+{num}\b` updates `no_asset` / `jenis` / `foto` by the keyword
`elif` chain; later usable values overwrite earlier ones, unusable ones do not
reset them. -/
def slotStep (num : Nat) (acc : SlotAcc) (cv : String × Option String) : SlotAcc :=
  if slotMatchCol num cv.1 then
    let cl := lowerL cv.1.data
    if isIdCol cl then
      if usableId cv.2 then { acc with no_asset := some (strip ((cv.2).getD "")) } else acc
    else if containsL "jenis".data cl then
      if usableVal cv.2 then { acc with jenis := some (strip ((cv.2).getD "")) } else acc
    else if containsL "upload".data cl || containsL "foto".data cl then
      if usableVal cv.2 then { acc with foto := some (strip ((cv.2).getD "")) } else acc
    else acc
  else acc

/-- The keyword `elif` chain of lines 197–213, viewed as the attribute a slot
column is classified into: id, category, or photo. -/
inductive ItemAttr where
  | assetId
  | category
  | photoRef
deriving Repr, DecidableEq

/-- Which attribute (if any) the chain of lines 197–213 assigns to a column. -/
def classifyAttr (col : String) : Option ItemAttr :=
  let cl := lowerL col.data
  if isIdCol cl then some .assetId
  else if containsL "jenis".data cl then some .category
  else if containsL "upload".data cl || containsL "foto".data cl then some .photoRef
  else none

/-- The classifier's column-to-(slot, attribute) assignment: slot `n` was
discovered from the header, the column matches `\bAsset\s+{n}\b`, and the
keyword chain classifies it into attribute `a`. -/
def assignedSlotAttr (columns : List String) (col : String) (n : Nat) (a : ItemAttr) : Prop :=
  n ∈ discoverNums columns ∧ slotMatchCol n col = true ∧ classifyAttr col = some a

/-- Lines 186–221: run the column loop for one slot number and build the asset
dictionary if a `No. Asset` value was found (`jenis if jenis else ''` etc.). -/
def assetsForSlot (row : Row) (num : Nat) : Option Asset :=
  let acc := row.foldl (slotStep num) ⟨none, none, none⟩
  match acc.no_asset with
  | some no => some ⟨no, acc.jenis.getD "", acc.foto.getD ""⟩
  | none => none

/-- Lines 184–221: the numbered-slot pass — each discovered slot, in ascending
order, contributes an asset when its id column held a usable value. -/
def numberedAssets (row : Row) : List Asset :=
  (discoverNums (row.map Prod.fst)).filterMap (assetsForSlot row)

/-- Line 234's fallback keyword test for the id column. -/
def isFbIdCol (col : String) : Bool :=
  containsCI "no" col && containsCI "asset" col &&
    !containsCI "upload" col && !containsCI "foto" col

/-- Lines 230–238: first column containing `no` and `asset` (but neither
`upload` nor `foto`) whose value is non-NaN, non-empty stripped, and does not
start with `http`; the scan continues past keyword matches with unusable values. -/
def fb_no : Row → Option String
  | [] => none
  | cv :: t =>
    if isFbIdCol cv.1 then
      if usableId cv.2 then some (strip ((cv.2).getD "")) else fb_no t
    else fb_no t

/-- Lines 242–248: first column containing `jenis` and `asset` with a non-NaN
value (the stripped value is kept even when it is empty). -/
def fb_jenis : Row → Option String
  | [] => none
  | cv :: t =>
    if containsCI "jenis" cv.1 && containsCI "asset" cv.1 then
      match cv.2 with
      | some v => some (strip v)
      | none => fb_jenis t
    else fb_jenis t

/-- Lines 250–256: first column containing (`upload` or `foto`) and `asset`
with a non-NaN value. -/
def fb_foto : Row → Option String
  | [] => none
  | cv :: t =>
    if (containsCI "upload" cv.1 || containsCI "foto" cv.1) && containsCI "asset" cv.1 then
      match cv.2 with
      | some v => some (strip v)
      | none => fb_foto t
    else fb_foto t

/-- Lines 225–262: the unnumbered fallback, producing at most one asset. -/
def fallbackAssets (row : Row) : List Asset :=
  match fb_no row with
  | some no => [⟨no, (fb_jenis row).getD "", (fb_foto row).getD ""⟩]
  | none => []

/-- Lines 169–264: `extract_assets_from_row` — the numbered pass, falling back
to the unnumbered scan only when it produced no assets. -/
def extract_assets_from_row (row : Row) : List Asset :=
  let assets := numberedAssets row
  if assets.isEmpty then fallbackAssets row else assets

/-! ## Consolidated grouping (`generate_excel_consolidated`, lines 479–536) -/

/-- Lines 487–501: the column-rename chain. Each original column name is
renamed by the first matching keyword rule (the rename loop iterates over the
original, pairwise-distinct column names, so the per-name rules are
independent). -/
def renameCol (col : String) : String :=
  if containsCI "timestamp" col then "Timestamp"
  else if containsCI "nama" col && !containsCI "jenis" col then "Nama"
  else if containsCI "divisi" col then "Divisi"
  else if containsCI "area" col then "Area"
  else if strip ⟨lowerL col.data⟩ = "pic" then "PIC"
  else if containsCI "dibuat" col && containsCI "oleh" col then "Dibuat Oleh"
  else if containsCI "jabatan" col then "Jabatan"
  else col

/-- Apply the rename chain to a row's column names. -/
def normalizeRow (row : Row) : Row :=
  row.map (fun cv => (renameCol cv.1, cv.2))

/-- Lines 504–508: `df.get(name, 'Unknown').fillna('Unknown')` for one row.
Only the NaN branch is a genuine default of the source: `fillna` replaces a
missing value of a present column with the literal `'Unknown'`. When the
column is absent, `df.get` returns the scalar string `'Unknown'` and
`'Unknown'.fillna(...)` raises `AttributeError` at the frame-level
`person_key` assignment, and when two columns were renamed to the same key
name the assignment raises as well — in both cases the run crashes before
any group is formed. This total function therefore models the source only on
rows whose normalized header holds the key column exactly once (the
`hasKeyCols` predicate); the `none`/duplicate branches return the default as
an arbitrary out-of-domain convention, and every statement about key
construction is scoped by `hasKeyCols`. -/
def keyField (row : Row) (name : String) : String :=
  match row.find? (fun cv => cv.1 == name) with
  | some (_, some v) => v
  | some (_, none) => "Unknown"
  | none => "Unknown"

/-- The domain on which the `person_key` construction of lines 504–508 runs
without raising: each of the three key columns occurs exactly once in the
normalized header (an absent or duplicated key column crashes the source at
the frame-level `person_key` assignment). -/
def hasKeyCols (row : Row) : Bool :=
  ((row.map Prod.fst).count "Nama" == 1) &&
    ((row.map Prod.fst).count "Divisi" == 1) &&
    ((row.map Prod.fst).count "Area" == 1)

/-- Lines 504–508: `person_key = Nama + '_' + Divisi + '_' + Area`, faithful
on rows satisfying `hasKeyCols`. -/
def rowKey (row : Row) : String :=
  keyField row "Nama" ++ "_" ++ keyField row "Divisi" ++ "_" ++ keyField row "Area"

/-- The `info` dictionary of a group (lines 518–526); `none` models a NaN value
carried through from the row. -/
structure PersonInfo where
  timestamp : Option String
  nama : Option String
  divisi : Option String
  area : Option String
  pic : Option String
  dibuatOleh : Option String
  jabatan : Option String
deriving Repr, DecidableEq

/-- Pandas `row.get(name, default)`: the stored value (NaN included) when the column
exists, the default otherwise. -/
def rowGet (row : Row) (name : String) (dflt : Option String) : Option String :=
  match row.find? (fun cv => cv.1 == name) with
  | some (_, v) => v
  | none => dflt

/-- Lines 518–526: the `info` dict built from the first row of a group. -/
def personInfoOfRow (row : Row) : PersonInfo where
  timestamp := rowGet row "Timestamp" (some "")
  nama := rowGet row "Nama" (some "Unknown")
  divisi := rowGet row "Divisi" (some "Unknown")
  area := rowGet row "Area" (some "Unknown")
  pic := rowGet row "PIC" (some "Unknown")
  dibuatOleh := rowGet row "Dibuat Oleh" (some "")
  jabatan := rowGet row "Jabatan" (some "")

/-- One value of the `grouped` dict. -/
structure Group where
  info : PersonInfo
  assets : List Asset
deriving Repr, DecidableEq

/-- Lines 513–532: process one (already renamed) row — create the group on a
fresh key (Python dicts preserve insertion order, so a fresh key goes to the
end), then extend its asset list. -/
def addRowToGroups (gs : List (String × Group)) (row : Row) : List (String × Group) :=
  let key := rowKey row
  let assets := extract_assets_from_row row
  if gs.any (fun kg => kg.1 == key) then
    gs.map (fun kg => if kg.1 == key then (kg.1, ⟨kg.2.info, kg.2.assets ++ assets⟩) else kg)
  else gs ++ [(key, ⟨personInfoOfRow row, assets⟩)]

/-- Lines 479–536: the grouping stage of `generate_excel_consolidated` — rename
the columns, then fold the rows into the insertion-ordered `grouped` dict
(file generation itself is outside the extracted core). -/
def generate_excel_consolidated (rows : List Row) : List (String × Group) :=
  (rows.map normalizeRow).foldl addRowToGroups []

/-- First-seen dedup of a key sequence: the iteration order of a Python dict
keyed by `person_key`. -/
def firstSeen (acc : List String) : List String → List String
  | [] => acc
  | k :: t => firstSeen (if acc.any (fun a => a == k) then acc else acc ++ [k]) t

/-! ## Template projection (`fill_excel_template`, lines 266–337) -/

/-- A template cell address: column letter and 1-based row. -/
structure CellRef where
  col : String
  row : Nat
deriving Repr, DecidableEq

/-- A value written to a cell: a string, an `int`, or a NaN passed through. -/
inductive CellVal where
  | str (s : String)
  | num (n : Nat)
  | blank
deriving Repr, DecidableEq

/-- A dictionary value written through `ws[...] = value`. -/
def ofOpt : Option String → CellVal
  | some s => .str s
  | none => .blank

/-- One cell assignment. -/
abbrev Write := CellRef × CellVal

/-- Python's `str.split(sep)` for a single-character separator. -/
def splitOnChar (sep : Char) : List Char → List (List Char)
  | [] => [[]]
  | c :: t =>
    let r := splitOnChar sep t
    if c = sep then [] :: r
    else
      match r with
      | h :: t2 => (c :: h) :: t2
      | [] => [[c]]

/-- Python's `str.replace('...', rep)`: left-to-right, non-overlapping. -/
def replaceDots (rep : List Char) : List Char → List Char
  | '.' :: '.' :: '.' :: rest => rep ++ replaceDots rep rest
  | c :: rest => c :: replaceDots rep rest
  | [] => []

/-- Line 286/291: `ws['E1'].value or "Tahun ..."`. -/
def e1Base (e1v : Option String) : List Char :=
  match e1v with
  | some s => if s = "" then "Tahun ...".data else s.data
  | none => "Tahun ...".data

/-- Lines 276–283: the year characters substituted for `...` — last
`/`-component before the space for `/`-timestamps, first `-`-component for
`-`-timestamps, else `str(datetime.now().year)`. -/
def yearChars (nowYear : Nat) (ts : String) : List Char :=
  if ts.data.contains '/' then
    (splitOnChar ' ' ((splitOnChar '/' ts.data).getLastD [])).headD []
  else if ts.data.contains '-' then
    (splitOnChar '-' ts.data).headD []
  else natDigits nowYear

/-- Lines 272–292: the write to `E1`. A NaN timestamp (`none`) is truthy in the
source and makes the `'/' in timestamp` test raise, so the `except` branch
substitutes the current year; the empty string is falsy and leaves `E1`
untouched. -/
def e1Writes (nowYear : Nat) (e1v : Option String) (ts : Option String) : List Write :=
  match ts with
  | none => [(⟨"E", 1⟩, .str ⟨replaceDots (natDigits nowYear) (e1Base e1v)⟩)]
  | some t =>
    if t = "" then []
    else [(⟨"E", 1⟩, .str ⟨replaceDots (yearChars nowYear t) (e1Base e1v)⟩)]

/-- Lines 299–306: the per-asset row block at row `9 + idx` (image insertion
in column D is an anchored drawing, not a cell write). -/
def assetRows (info : PersonInfo) : Nat → List Asset → List Write
  | _, [] => []
  | idx, a :: rest =>
    [(⟨"A", 9 + idx⟩, .num (idx + 1)),
     (⟨"B", 9 + idx⟩, .str a.jenis),
     (⟨"C", 9 + idx⟩, .str a.no),
     (⟨"F", 9 + idx⟩, ofOpt info.nama),
     (⟨"G", 9 + idx⟩, ofOpt info.jabatan)] ++ assetRows info (idx + 1) rest

/-- Lines 266–337: the ordered cell writes of `fill_excel_template`, with
`datetime.now().year` and the template's `E1` content passed explicitly. -/
def fill_excel_template (nowYear : Nat) (e1v : Option String) (info : PersonInfo)
    (assets : List Asset) : List Write :=
  e1Writes nowYear e1v info.timestamp ++
    [(⟨"H", 1⟩, ofOpt info.area),
     (⟨"H", 2⟩, ofOpt info.divisi),
     (⟨"E", 27⟩, ofOpt info.dibuatOleh),
     (⟨"K", 28⟩, ofOpt info.pic)] ++
    assetRows info 0 assets

/-- The five fixed header/footer cells the projector fills outside the item rows. -/
def headerCells : List CellRef :=
  [⟨"E", 1⟩, ⟨"H", 1⟩, ⟨"H", 2⟩, ⟨"E", 27⟩, ⟨"K", 28⟩]

/-! ## Helper lemmas on lists and decimal renderings -/

theorem prefixOf_nil_left (l : List Char) : ([] : List Char).isPrefixOf l = true := by
  cases l <;> rfl

theorem prefixOf_of_le {u v l : List Char} (hu : u.isPrefixOf l = true)
    (hv : v.isPrefixOf l = true) (hle : u.length ≤ v.length) : u.isPrefixOf v = true := by
  induction u generalizing v l with
  | nil => exact prefixOf_nil_left v
  | cons a as ih =>
    cases l with
    | nil => simp [List.isPrefixOf] at hu
    | cons c cs =>
      cases v with
      | nil => simp at hle
      | cons b bs =>
        simp only [List.isPrefixOf, Bool.and_eq_true, beq_iff_eq] at hu hv ⊢
        exact ⟨hu.1.trans hv.1.symm, ih hu.2 hv.2 (by simpa using hle)⟩

theorem prefixOf_eq_of_length {u v : List Char} (h : u.isPrefixOf v = true)
    (hl : u.length = v.length) : u = v := by
  induction u generalizing v with
  | nil => cases v with
    | nil => rfl
    | cons b bs => simp at hl
  | cons a as ih =>
    cases v with
    | nil => simp [List.isPrefixOf] at h
    | cons b bs =>
      simp only [List.isPrefixOf, Bool.and_eq_true, beq_iff_eq] at h
      simp only [List.length_cons, Nat.succ_inj] at hl
      exact h.1 ▸ congrArg _ (ih h.2 hl)

theorem prefixOf_getElem? {u l : List Char} (h : u.isPrefixOf l = true)
    {k : Nat} (hk : k < u.length) : l[k]? = u[k]? := by
  induction u generalizing l k with
  | nil => simp at hk
  | cons a as ih =>
    cases l with
    | nil => simp [List.isPrefixOf] at h
    | cons c cs =>
      simp only [List.isPrefixOf, Bool.and_eq_true, beq_iff_eq] at h
      cases k with
      | zero => simp [h.1]
      | succ k' => simpa using ih h.2 (by simpa using hk)

theorem getElem?_mem_of_some {u : List Char} {k : Nat} {c : Char}
    (h : u[k]? = some c) : c ∈ u := by
  obtain ⟨hlt, he⟩ := List.getElem?_eq_some.mp h
  exact he ▸ u.getElem_mem hlt

theorem digitChar_isDigit (d : Nat) : (digitChar d).isDigit = true := by
  match d with
  | 0 | 1 | 2 | 3 | 4 | 5 | 6 | 7 | 8 => decide
  | _ + 9 => rfl

theorem digitChar_val {d : Nat} (h : d < 10) : (digitChar d).toNat - 48 = d := by
  interval_cases d <;> decide

theorem natDigitsAux_acc (fuel : Nat) : ∀ n acc, n ≤ fuel →
    natDigitsAux fuel n acc = natDigitsAux fuel n [] ++ acc := by
  induction fuel with
  | zero => intro n acc _; rfl
  | succ fuel ih =>
    intro n acc hn
    by_cases h : n < 10
    · simp [natDigitsAux, h]
    · have hdiv : n / 10 ≤ fuel := by
        have : n / 10 < n := Nat.div_lt_self (by omega) (by omega)
        omega
      simp only [natDigitsAux, if_neg h]
      rw [ih (n / 10) (digitChar (n % 10) :: acc) hdiv, ih (n / 10) [digitChar (n % 10)] hdiv]
      simp

theorem natDigitsAux_fuel {fuel fuel' : Nat} : ∀ {n : Nat}, n ≤ fuel → n ≤ fuel' →
    ∀ acc, natDigitsAux fuel n acc = natDigitsAux fuel' n acc := by
  induction fuel generalizing fuel' with
  | zero =>
    intro n h1 _ acc
    cases fuel' with
    | zero => rfl
    | succ f => have : n = 0 := by omega
                simp [this, natDigitsAux]
  | succ fuel ih =>
    intro n h1 h2 acc
    cases fuel' with
    | zero =>
      have : n = 0 := by omega
      simp [this, natDigitsAux]
    | succ f =>
      by_cases h : n < 10
      · simp [natDigitsAux, h]
      · have hx : n / 10 < n := Nat.div_lt_self (by omega) (by omega)
        simp only [natDigitsAux, if_neg h]
        exact ih (by omega) (by omega) _

theorem natDigits_lt (n : Nat) (h : n < 10) : natDigits n = [digitChar n] := by
  cases n with
  | zero => rfl
  | succ m => simp [natDigits, natDigitsAux, h]

theorem natDigits_ge (n : Nat) (h : 10 ≤ n) :
    natDigits n = natDigits (n / 10) ++ [digitChar (n % 10)] := by
  have hn1 : n = (n - 1) + 1 := by omega
  have hdiv : n / 10 < n := Nat.div_lt_self (by omega) (by omega)
  calc natDigits n = natDigitsAux ((n - 1) + 1) n [] := by rw [natDigits, ← hn1]
    _ = natDigitsAux (n - 1) (n / 10) [digitChar (n % 10)] := by
          simp [natDigitsAux, Nat.not_lt_of_le h]
    _ = natDigitsAux (n - 1) (n / 10) [] ++ [digitChar (n % 10)] :=
          natDigitsAux_acc _ _ _ (by omega)
    _ = natDigitsAux (n / 10) (n / 10) [] ++ [digitChar (n % 10)] := by
          rw [natDigitsAux_fuel (by omega) (le_refl _)]
    _ = natDigits (n / 10) ++ [digitChar (n % 10)] := rfl

theorem digitsVal_append_one (xs : List Char) (c : Char) :
    digitsVal (xs ++ [c]) = 10 * digitsVal xs + (c.toNat - 48) := by
  simp [digitsVal, List.foldl_append]

theorem digitsVal_natDigits (n : Nat) : digitsVal (natDigits n) = n := by
  induction n using Nat.strong_induction_on with
  | _ n ih =>
    by_cases h : n < 10
    · rw [natDigits_lt n h]
      simp [digitsVal, digitChar_val h]
    · have h10 : 10 ≤ n := by omega
      rw [natDigits_ge n h10, digitsVal_append_one,
        ih (n / 10) (Nat.div_lt_self (by omega) (by omega)),
        digitChar_val (Nat.mod_lt _ (by omega))]
      omega

theorem natDigits_inj {a b : Nat} (h : natDigits a = natDigits b) : a = b := by
  have := congrArg digitsVal h
  rwa [digitsVal_natDigits, digitsVal_natDigits] at this

theorem natDigits_ne_nil (n : Nat) : natDigits n ≠ [] := by
  by_cases h : n < 10
  · rw [natDigits_lt n h]; simp
  · rw [natDigits_ge n (by omega)]; simp

theorem natDigits_isDigit (n : Nat) : ∀ c ∈ natDigits n, c.isDigit = true := by
  induction n using Nat.strong_induction_on with
  | _ n ih =>
    by_cases h : n < 10
    · rw [natDigits_lt n h]
      intro c hc
      simp only [List.mem_singleton] at hc
      exact hc ▸ digitChar_isDigit n
    · rw [natDigits_ge n (by omega)]
      intro c hc
      rcases List.mem_append.mp hc with h1 | h1
      · exact ih (n / 10) (Nat.div_lt_self (by omega) (by omega)) c h1
      · simp only [List.mem_singleton] at h1
        exact h1 ▸ digitChar_isDigit _

/-! ## Uniqueness of the word-boundary slot match (claim C3) -/

theorem slotHere_parts {u cs : List Char} (h : slotHere u cs = true) :
    "asset".data.isPrefixOf cs = true ∧
    ((cs.drop 5).takeWhile pyIsSpace).isEmpty = false ∧
    u.isPrefixOf ((cs.drop 5).dropWhile pyIsSpace) = true ∧
    bdryOk ((((cs.drop 5).dropWhile pyIsSpace).drop u.length).head?) = true := by
  simp only [slotHere, Bool.and_eq_true, Bool.not_eq_true'] at h
  tauto

theorem isWordChar_of_isDigit {c : Char} (h : c.isDigit = true) : isWordChar c = true := by
  simp [isWordChar, Char.isAlphanum, h]

theorem slotHere_eq_aux {u v cs : List Char}
    (hu : slotHere u cs = true) (hv : slotHere v cs = true)
    (hvd : ∀ c ∈ v, c.isDigit = true) (hle : u.length ≤ v.length) : u = v := by
  obtain ⟨-, -, up, ub⟩ := slotHere_parts hu
  obtain ⟨-, -, vp, -⟩ := slotHere_parts hv
  rcases Nat.eq_or_lt_of_le hle with heq | hlt
  · exact prefixOf_eq_of_length (prefixOf_of_le up vp hle) heq
  · exfalso
    have hd : v[u.length]? = some v[u.length] := List.getElem?_eq_getElem hlt
    have h2 : ((cs.drop 5).dropWhile pyIsSpace)[u.length]? = v[u.length]? :=
      prefixOf_getElem? vp hlt
    rw [List.head?_drop, h2, hd] at ub
    have hdig : (v[u.length]).isDigit = true :=
      hvd _ (v.getElem_mem hlt)
    simp [bdryOk, isWordChar_of_isDigit hdig] at ub

theorem slotHere_eq {u v cs : List Char}
    (hu : slotHere u cs = true) (hv : slotHere v cs = true)
    (hud : ∀ c ∈ u, c.isDigit = true) (hvd : ∀ c ∈ v, c.isDigit = true) : u = v := by
  rcases Nat.le_total u.length v.length with h | h
  · exact slotHere_eq_aux hu hv hvd h
  · exact (slotHere_eq_aux hv hu hud h).symm

theorem slotHere_anchor {u cs : List Char} (hne : u ≠ [])
    (hud : ∀ c ∈ u, c.isDigit = true) (h : slotHere u cs = true) :
    anchorHere cs = true := by
  obtain ⟨h1, h2, h3, -⟩ := slotHere_parts h
  cases u with
  | nil => exact absurd rfl hne
  | cons d u' =>
    cases hr : (cs.drop 5).dropWhile pyIsSpace with
    | nil => rw [hr] at h3; simp [List.isPrefixOf] at h3
    | cons e r2 =>
      rw [hr] at h3
      simp only [List.isPrefixOf, Bool.and_eq_true, beq_iff_eq] at h3
      have he : e.isDigit = true := h3.1 ▸ hud d (by simp)
      simp [anchorHere, h1, h2, hr, he]

theorem slotSearch_anchorCount {u : List Char} (hne : u ≠ [])
    (hud : ∀ c ∈ u, c.isDigit = true) :
    ∀ (cs : List Char) (prev : Option Char),
      slotSearch u prev cs = true → 1 ≤ anchorCount prev cs := by
  intro cs
  induction cs with
  | nil => intro prev h; simp [slotSearch] at h
  | cons c t ih =>
    intro prev h
    simp only [slotSearch, Bool.or_eq_true, Bool.and_eq_true] at h
    rcases h with ⟨hb, hh⟩ | hrec
    · have : (bdryOk prev && anchorHere (c :: t)) = true := by
        simp [hb, slotHere_anchor hne hud hh]
      simp only [anchorCount, this, if_true]
      omega
    · have := ih (some c) hrec
      simp only [anchorCount]
      omega

theorem slotSearch_unique {u v : List Char} (hune : u ≠ []) (hvne : v ≠ [])
    (hud : ∀ c ∈ u, c.isDigit = true) (hvd : ∀ c ∈ v, c.isDigit = true) :
    ∀ (cs : List Char) (prev : Option Char), anchorCount prev cs ≤ 1 →
      slotSearch u prev cs = true → slotSearch v prev cs = true → u = v := by
  intro cs
  induction cs with
  | nil => intro prev _ h; simp [slotSearch] at h
  | cons c t ih =>
    intro prev hcnt hu hv
    simp only [slotSearch, Bool.or_eq_true, Bool.and_eq_true] at hu hv
    rcases hu with ⟨hub, huh⟩ | hurec
    · rcases hv with ⟨hvb, hvh⟩ | hvrec
      · exact slotHere_eq huh hvh hud hvd
      · exfalso
        have h1 : (bdryOk prev && anchorHere (c :: t)) = true := by
          simp [hub, slotHere_anchor hune hud huh]
        have h2 := slotSearch_anchorCount hvne hvd t (some c) hvrec
        simp only [anchorCount, h1, if_true] at hcnt
        omega
    · rcases hv with ⟨hvb, hvh⟩ | hvrec
      · exfalso
        have h1 : (bdryOk prev && anchorHere (c :: t)) = true := by
          simp [hvb, slotHere_anchor hvne hvd hvh]
        have h2 := slotSearch_anchorCount hune hud t (some c) hurec
        simp only [anchorCount, h1, if_true] at hcnt
        omega
      · refine ih (some c) ?_ hurec hvrec
        simp only [anchorCount] at hcnt
        omega

/-! ## Per-slot inclusion characterization (claim C1) -/

/-- The Boolean condition under which a column can contribute an id value to
slot `num`: it matches the slot pattern, carries the id keywords, and holds a
usable (non-NaN, non-blank, non-`http`) value. -/
def idContrib (num : Nat) (cv : String × Option String) : Bool :=
  slotMatchCol num cv.1 && isIdCol (lowerL cv.1.data) && usableId cv.2

theorem slotStep_no_isSome (num : Nat) (acc : SlotAcc) (cv : String × Option String) :
    ((slotStep num acc cv).no_asset).isSome
      = (acc.no_asset.isSome || idContrib num cv) := by
  unfold slotStep idContrib
  cases h1 : slotMatchCol num cv.1
  · simp
  · by_cases h2 : isIdCol (lowerL cv.1.data) = true
    · cases h3 : usableId cv.2 <;> simp [h2, h3]
    · by_cases h4 : containsL "jenis".data (lowerL cv.1.data) = true
      · cases h5 : usableVal cv.2 <;> simp [h2, h4, h5]
      · by_cases h6 : (containsL "upload".data (lowerL cv.1.data)
            || containsL "foto".data (lowerL cv.1.data)) = true
        · cases h7 : usableVal cv.2 <;> simp [h2, h4, h6, h7]
        · simp [h2, h4, h6]

theorem foldl_no_isSome (num : Nat) :
    ∀ (row : Row) (acc : SlotAcc),
      ((row.foldl (slotStep num) acc).no_asset).isSome
        = (acc.no_asset.isSome || row.any (idContrib num)) := by
  intro row
  induction row with
  | nil => intro acc; simp
  | cons cv t ih =>
    intro acc
    simp only [List.foldl_cons, List.any_cons, ih, slotStep_no_isSome, Bool.or_assoc]

theorem assetsForSlot_isSome (row : Row) (num : Nat) :
    (assetsForSlot row num).isSome = row.any (idContrib num) := by
  have h := foldl_no_isSome num row ⟨none, none, none⟩
  simp only [Option.isSome_none, Bool.false_or] at h
  cases hn : (row.foldl (slotStep num) ⟨none, none, none⟩).no_asset with
  | none =>
    rw [hn] at h
    simp only [Option.isSome_none] at h
    unfold assetsForSlot
    dsimp only
    rw [hn]
    simpa using h
  | some v =>
    rw [hn] at h
    simp only [Option.isSome_some] at h
    unfold assetsForSlot
    dsimp only
    rw [hn]
    simpa using h

/-! ## Ascending order of discovered slot numbers (claim C1) -/

theorem insertSorted_head? (n : Nat) (l : List Nat) :
    (insertSorted n l).head? = some n ∨ (insertSorted n l).head? = l.head? := by
  cases l with
  | nil => left; rfl
  | cons m t =>
    by_cases h1 : n < m
    · left; simp [insertSorted, h1]
    · by_cases h2 : n = m <;> right <;> simp [insertSorted, h1, h2]

theorem insertSorted_chain (n : Nat) :
    ∀ l, List.Chain' (· < ·) l → List.Chain' (· < ·) (insertSorted n l) := by
  intro l
  induction l with
  | nil => intro _; simp [insertSorted]
  | cons m t ih =>
    intro h
    by_cases h1 : n < m
    · simp only [insertSorted, if_pos h1]
      exact List.chain'_cons'.mpr ⟨fun y hy => by simp at hy; omega, h⟩
    · by_cases h2 : n = m
      · simpa [insertSorted, h1, h2] using h
      · simp only [insertSorted, if_neg h1, if_neg h2]
        have hmn : m < n := by omega
        refine List.chain'_cons'.mpr ⟨?_, ih (List.chain'_cons'.mp h).2⟩
        intro y hy
        rcases insertSorted_head? n t with he | he
        · rw [he] at hy; simp at hy; omega
        · rw [he] at hy
          exact (List.chain'_cons'.mp h).1 y hy

theorem discoverNums_chain (columns : List String) :
    List.Chain' (· < ·) (discoverNums columns) := by
  suffices h : ∀ acc, List.Chain' (· < ·) acc →
      List.Chain' (· < ·) (columns.foldl
        (fun acc col =>
          if !containsCI "upload" col && !containsCI "foto" col then
            match searchAssetNum (lowerL col.data) with
            | some n => insertSorted n acc
            | none => acc
          else acc) acc) by
    exact h [] List.chain'_nil
  induction columns with
  | nil => intro acc hacc; exact hacc
  | cons col t ih =>
    intro acc hacc
    simp only [List.foldl_cons]
    apply ih
    split
    · split
      · exact insertSorted_chain _ _ hacc
      · exact hacc
    · exact hacc

/-! ## First-match characterization of the unnumbered fallback (claim C6) -/

theorem fb_no_eq_find (row : Row) :
    fb_no row = (row.find? (fun cv => isFbIdCol cv.1 && usableId cv.2)).map
      (fun cv => strip ((cv.2).getD "")) := by
  induction row with
  | nil => rfl
  | cons cv t ih =>
    by_cases h1 : isFbIdCol cv.1 = true
    · cases h2 : usableId cv.2
      · simp [fb_no, h1, h2, List.find?, ih]
      · simp [fb_no, h1, h2, List.find?]
    · simp only [Bool.not_eq_true] at h1
      simp [fb_no, h1, List.find?, ih]

theorem fb_jenis_eq_find (row : Row) :
    fb_jenis row = (row.find? (fun cv =>
        (containsCI "jenis" cv.1 && containsCI "asset" cv.1) && (cv.2).isSome)).map
      (fun cv => strip ((cv.2).getD "")) := by
  induction row with
  | nil => rfl
  | cons cv t ih =>
    by_cases h1 : (containsCI "jenis" cv.1 && containsCI "asset" cv.1) = true
    · cases h2 : cv.2 with
      | none => simp [fb_jenis, h1, h2, List.find?, ih]
      | some v => simp [fb_jenis, h1, h2, List.find?]
    · simp only [Bool.not_eq_true] at h1
      simp [fb_jenis, h1, List.find?, ih]

theorem fb_foto_eq_find (row : Row) :
    fb_foto row = (row.find? (fun cv =>
        ((containsCI "upload" cv.1 || containsCI "foto" cv.1) && containsCI "asset" cv.1)
          && (cv.2).isSome)).map
      (fun cv => strip ((cv.2).getD "")) := by
  induction row with
  | nil => rfl
  | cons cv t ih =>
    by_cases h1 : ((containsCI "upload" cv.1 || containsCI "foto" cv.1)
        && containsCI "asset" cv.1) = true
    · cases h2 : cv.2 with
      | none => simp [fb_foto, h1, h2, List.find?, ih]
      | some v => simp [fb_foto, h1, h2, List.find?]
    · simp only [Bool.not_eq_true] at h1
      simp [fb_foto, h1, List.find?, ih]

/-! ## Characterization of the consolidated grouping fold (claims C2, C7) -/

theorem bool_eq_false {b : Bool} (h : ¬b = true) : b = false := by
  cases b
  · rfl
  · exact absurd rfl h

theorem any_eq_find_isSome (p : String × Group → Bool) (l : List (String × Group)) :
    l.any p = (l.find? p).isSome := by
  induction l with
  | nil => rfl
  | cons x t ih =>
    cases h : p x
    · simp only [List.any_cons, h, List.find?_cons, Bool.false_or, ih]
    · simp only [List.any_cons, h, List.find?_cons, Bool.true_or, Option.isSome_some]

theorem addRow_mem_case (gs : List (String × Group)) (row : Row)
    (h : gs.any (fun kg => kg.1 == rowKey row) = true) :
    addRowToGroups gs row = gs.map (fun kg =>
      if kg.1 == rowKey row then
        (kg.1, ⟨kg.2.info, kg.2.assets ++ extract_assets_from_row row⟩) else kg) := by
  unfold addRowToGroups
  dsimp only
  rw [if_pos h]

theorem addRow_new_case (gs : List (String × Group)) (row : Row)
    (h : gs.any (fun kg => kg.1 == rowKey row) = false) :
    addRowToGroups gs row
      = gs ++ [(rowKey row, ⟨personInfoOfRow row, extract_assets_from_row row⟩)] := by
  unfold addRowToGroups
  dsimp only
  rw [if_neg (by rw [h]; exact Bool.false_ne_true)]

theorem find?_map_extend (gs : List (String × Group)) (key k : String) (as : List Asset) :
    ((gs.map (fun kg => if kg.1 == key then
        ((kg.1, ⟨kg.2.info, kg.2.assets ++ as⟩) : String × Group) else kg)).find?
      (fun kg => kg.1 == k))
    = (if key = k then
        (gs.find? (fun kg => kg.1 == k)).map
          (fun kg => (kg.1, (⟨kg.2.info, kg.2.assets ++ as⟩ : Group)))
       else gs.find? (fun kg => kg.1 == k)) := by
  induction gs with
  | nil => by_cases h : key = k <;> simp [h]
  | cons kg gs ih =>
    rw [List.map_cons]
    by_cases h1 : (kg.1 == key) = true
    · have hk1 : kg.1 = key := beq_iff_eq.mp h1
      by_cases hk : key = k
      · subst hk
        rw [if_pos h1]
        simp [List.find?_cons, h1]
      · have h2 : (kg.1 == k) = false := by
          rw [hk1]
          exact beq_eq_false_iff_ne.mpr hk
        rw [if_pos h1]
        simp only [List.find?_cons, h2, ih, if_neg hk]
    · have h1f : (kg.1 == key) = false := bool_eq_false h1
      rw [if_neg h1]
      by_cases h2 : (kg.1 == k) = true
      · have hk : key ≠ k := by
          intro he
          subst he
          exact h1 h2
        simp only [List.find?_cons, h2, if_neg hk]
      · have h2f : (kg.1 == k) = false := bool_eq_false h2
        simp only [List.find?_cons, h2f, ih]

theorem find?_append_unit (gs : List (String × Group)) (x : String × Group) (k : String) :
    ((gs ++ [x]).find? (fun kg => kg.1 == k))
      = (gs.find? (fun kg => kg.1 == k)).or (if x.1 == k then some x else none) := by
  rw [List.find?_append]
  congr 1
  cases h : (x.1 == k) <;> simp [List.find?, h]

/-- The entry the consolidated fold holds for key `k`: starting groups `gs`,
the matching rows of the batch extend an existing entry's asset list, or create
a fresh entry carrying the first matching row's `info`. -/
theorem consol_find : ∀ (rows : List Row) (gs : List (String × Group)) (k : String),
    ((rows.foldl addRowToGroups gs).find? (fun kg => kg.1 == k))
      = (match gs.find? (fun kg => kg.1 == k) with
         | some kg => some (kg.1,
             ⟨kg.2.info, kg.2.assets ++
               (rows.filter (fun r => rowKey r == k)).flatMap extract_assets_from_row⟩)
         | none =>
             ((rows.filter (fun r => rowKey r == k)).head?).map
               (fun r => (k, ⟨personInfoOfRow r,
                 (rows.filter (fun r => rowKey r == k)).flatMap extract_assets_from_row⟩))) := by
  intro rows
  induction rows with
  | nil =>
    intro gs k
    cases h : gs.find? (fun kg => kg.1 == k) with
    | none => simp [h]
    | some kg => simp [h]
  | cons r rest ih =>
    intro gs k
    rw [List.foldl_cons, ih]
    by_cases hr : (rowKey r == k) = true
    · have hrk : rowKey r = k := beq_iff_eq.mp hr
      by_cases hany : gs.any (fun kg => kg.1 == rowKey r) = true
      · have hsome : (gs.find? (fun kg => kg.1 == k)).isSome = true := by
          rw [← any_eq_find_isSome, ← hrk]
          exact hany
        obtain ⟨kg, h⟩ := Option.isSome_iff_exists.mp hsome
        rw [addRow_mem_case gs r hany, hrk, find?_map_extend, if_pos rfl, h]
        simp [List.filter_cons, hr, List.append_assoc]
      · have hany' : gs.any (fun kg => kg.1 == rowKey r) = false := bool_eq_false hany
        have hnone : gs.find? (fun kg => kg.1 == k) = none := by
          cases hx : gs.find? (fun kg => kg.1 == k) with
          | none => rfl
          | some kg =>
            rw [← hrk] at hx
            rw [any_eq_find_isSome, hx] at hany'
            simp at hany'
        rw [addRow_new_case gs r hany', hrk, find?_append_unit, hnone, Option.none_or]
        simp [List.filter_cons, hr, hrk]
    · have hr' : (rowKey r == k) = false := bool_eq_false hr
      have hne : rowKey r ≠ k := by
        intro he
        rw [he] at hr'
        simp at hr'
      have hfind : ((addRowToGroups gs r).find? (fun kg => kg.1 == k))
          = gs.find? (fun kg => kg.1 == k) := by
        by_cases hany : gs.any (fun kg => kg.1 == rowKey r) = true
        · rw [addRow_mem_case gs r hany, find?_map_extend, if_neg hne]
        · have hany' : gs.any (fun kg => kg.1 == rowKey r) = false := bool_eq_false hany
          rw [addRow_new_case gs r hany', find?_append_unit]
          simp [hr']
      rw [hfind]
      simp only [List.filter_cons, hr', Bool.false_eq_true, if_false]

theorem map_fst_extend (gs : List (String × Group)) (key : String) (as : List Asset) :
    (gs.map (fun kg => if kg.1 == key then
        ((kg.1, ⟨kg.2.info, kg.2.assets ++ as⟩) : String × Group) else kg)).map Prod.fst
      = gs.map Prod.fst := by
  induction gs with
  | nil => rfl
  | cons kg gs ih =>
    rw [List.map_cons, List.map_cons, ih, List.map_cons]
    congr 1
    by_cases h : (kg.1 == key) = true
    · rw [if_pos h]
    · rw [if_neg h]

theorem any_map_fst (gs : List (String × Group)) (key : String) :
    gs.any (fun kg => kg.1 == key) = (gs.map Prod.fst).any (fun a => a == key) := by
  induction gs with
  | nil => rfl
  | cons kg gs ih => rw [List.map_cons, List.any_cons, List.any_cons, ih]

theorem addRow_map_fst (gs : List (String × Group)) (row : Row) :
    (addRowToGroups gs row).map Prod.fst
      = (if (gs.map Prod.fst).any (fun a => a == rowKey row) then gs.map Prod.fst
         else gs.map Prod.fst ++ [rowKey row]) := by
  by_cases h : gs.any (fun kg => kg.1 == rowKey row) = true
  · rw [addRow_mem_case gs row h, map_fst_extend,
      if_pos (by rw [← any_map_fst]; exact h)]
  · have h' : gs.any (fun kg => kg.1 == rowKey row) = false := bool_eq_false h
    rw [addRow_new_case gs row h', List.map_append,
      if_neg (by rw [← any_map_fst, h']; exact Bool.false_ne_true)]
    rfl

/-- Iteration order of the groups: insertion (first-seen) order of the keys. -/
theorem consol_keys : ∀ (rows : List Row) (gs : List (String × Group)),
    ((rows.foldl addRowToGroups gs).map Prod.fst)
      = firstSeen (gs.map Prod.fst) (rows.map rowKey) := by
  intro rows
  induction rows with
  | nil => intro gs; rfl
  | cons r rest ih =>
    intro gs
    rw [List.foldl_cons, List.map_cons, ih, firstSeen, addRow_map_fst]

/-! ## Projection lemmas (`fill_excel_template`, claims C5, C8, C10) -/

theorem assetRows_filterA (info : PersonInfo) :
    ∀ (assets : List Asset) (j : Nat),
      ((assetRows info j assets).filter (fun w => w.1.col == "A")).length
        = assets.length := by
  intro assets
  induction assets with
  | nil => intro j; rfl
  | cons a rest ih =>
    intro j
    simp only [assetRows, List.cons_append, List.nil_append, List.filter_cons]
    simp [ih (j + 1)]

theorem assetRows_A_mem (info : PersonInfo) :
    ∀ (assets : List Asset) (j r : Nat) (v : CellVal),
      ((⟨"A", r⟩, v) : Write) ∈ assetRows info j assets →
        ∃ i, i < assets.length ∧ r = 9 + j + i ∧ v = .num (j + i + 1) := by
  intro assets
  induction assets with
  | nil => intro j r v h; simp [assetRows] at h
  | cons a rest ih =>
    intro j r v h
    simp only [assetRows, List.cons_append, List.nil_append, List.mem_cons] at h
    rcases h with h | h | h | h | h | h
    · refine ⟨0, by simp only [List.length_cons]; omega, ?_, ?_⟩
      · have := congrArg (fun w => w.1.row) h
        simpa using this
      · have := congrArg Prod.snd h
        simpa using this
    · exact absurd (congrArg (fun w => w.1.col) h) (by simp)
    · exact absurd (congrArg (fun w => w.1.col) h) (by simp)
    · exact absurd (congrArg (fun w => w.1.col) h) (by simp)
    · exact absurd (congrArg (fun w => w.1.col) h) (by simp)
    · obtain ⟨i, hi, hr0, hv⟩ := ih (j + 1) r v h
      refine ⟨i + 1, by simp only [List.length_cons]; omega, by omega, ?_⟩
      rw [hv]
      congr 1
      omega

theorem assetRows_get (info : PersonInfo) :
    ∀ (assets : List Asset) (j i : Nat) (a : Asset), assets[i]? = some a →
      ((⟨"A", 9 + j + i⟩, CellVal.num (j + i + 1)) : Write) ∈ assetRows info j assets ∧
      ((⟨"B", 9 + j + i⟩, CellVal.str a.jenis) : Write) ∈ assetRows info j assets ∧
      ((⟨"C", 9 + j + i⟩, CellVal.str a.no) : Write) ∈ assetRows info j assets ∧
      ((⟨"F", 9 + j + i⟩, ofOpt info.nama) : Write) ∈ assetRows info j assets ∧
      ((⟨"G", 9 + j + i⟩, ofOpt info.jabatan) : Write) ∈ assetRows info j assets := by
  intro assets
  induction assets with
  | nil => intro j i a h; simp at h
  | cons a0 rest ih =>
    intro j i a h
    cases i with
    | zero =>
      have ha : a0 = a := by simpa using h
      subst ha
      refine ⟨?_, ?_, ?_, ?_, ?_⟩ <;> simp [assetRows]
    | succ i' =>
      have h' : rest[i']? = some a := by simpa using h
      obtain ⟨h1, h2, h3, h4, h5⟩ := ih (j + 1) i' a h'
      have e1 : 9 + (j + 1) + i' = 9 + j + (i' + 1) := by omega
      have e2 : (j + 1) + i' + 1 = j + (i' + 1) + 1 := by omega
      rw [e1, e2] at h1
      rw [e1] at h2 h3 h4 h5
      refine ⟨?_, ?_, ?_, ?_, ?_⟩ <;>
        simp only [assetRows, List.cons_append, List.nil_append, List.mem_cons] <;> tauto

theorem assetRows_shape (info : PersonInfo) :
    ∀ (assets : List Asset) (j : Nat) (w : Write), w ∈ assetRows info j assets →
      (w.1.col = "A" ∨ w.1.col = "B" ∨ w.1.col = "C" ∨ w.1.col = "F" ∨ w.1.col = "G")
        ∧ 9 ≤ w.1.row := by
  intro assets
  induction assets with
  | nil => intro j w h; simp [assetRows] at h
  | cons a rest ih =>
    intro j w h
    simp only [assetRows, List.cons_append, List.nil_append, List.mem_cons] at h
    rcases h with h | h | h | h | h | h
    · subst h; exact ⟨Or.inl rfl, by simp⟩
    · subst h; exact ⟨Or.inr (Or.inl rfl), by simp⟩
    · subst h; exact ⟨Or.inr (Or.inr (Or.inl rfl)), by simp⟩
    · subst h; exact ⟨Or.inr (Or.inr (Or.inr (Or.inl rfl))), by simp⟩
    · subst h; exact ⟨Or.inr (Or.inr (Or.inr (Or.inr rfl))), by simp⟩
    · exact ih (j + 1) w h

theorem assetRows_not_header (info : PersonInfo) (assets : List Asset) :
    ∀ w ∈ assetRows info 0 assets, w.1 ∉ headerCells := by
  intro w hw hc
  obtain ⟨hcol, -⟩ := assetRows_shape info assets 0 w hw
  simp only [headerCells, List.mem_cons, List.not_mem_nil, or_false] at hc
  rcases hc with hc | hc | hc | hc | hc <;> rw [hc] at hcol <;> simp at hcol

theorem fill_filterA (nowYear : Nat) (e1v : Option String) (info : PersonInfo)
    (assets : List Asset) :
    ((fill_excel_template nowYear e1v info assets).filter
        (fun w => w.1.col == "A")).length = assets.length := by
  unfold fill_excel_template
  rw [List.filter_append, List.filter_append]
  have he : (e1Writes nowYear e1v info.timestamp).filter (fun w => w.1.col == "A") = [] := by
    rcases info.timestamp with _ | t
    · simp [e1Writes]
    · by_cases h : t = "" <;> simp [e1Writes, h]
  rw [he]
  simp [assetRows_filterA info assets 0]

theorem fill_A_mem (nowYear : Nat) (e1v : Option String) (info : PersonInfo)
    (assets : List Asset) (r : Nat) (v : CellVal)
    (h : ((⟨"A", r⟩, v) : Write) ∈ fill_excel_template nowYear e1v info assets) :
    ∃ i, i < assets.length ∧ r = 9 + i ∧ v = .num (i + 1) := by
  unfold fill_excel_template at h
  rw [List.mem_append, List.mem_append] at h
  rcases h with (h | h) | h
  · exfalso
    cases hts : info.timestamp with
    | none =>
      rw [hts] at h
      simp [e1Writes] at h
    | some t =>
      rw [hts] at h
      by_cases ht : t = "" <;> simp [e1Writes, ht] at h
  · exfalso
    simp only [List.mem_cons, List.not_mem_nil, or_false] at h
    rcases h with h | h | h | h <;> simp at h
  · obtain ⟨i, hi, hr0, hv⟩ := assetRows_A_mem info assets 0 r v h
    refine ⟨i, hi, by omega, by rw [hv]; congr 1; omega⟩

theorem fill_block_mem (nowYear : Nat) (e1v : Option String) (info : PersonInfo)
    (assets : List Asset) (i : Nat) (a : Asset) (h : assets[i]? = some a) :
    ((⟨"A", 9 + i⟩, CellVal.num (i + 1)) : Write)
        ∈ fill_excel_template nowYear e1v info assets ∧
    ((⟨"B", 9 + i⟩, CellVal.str a.jenis) : Write)
        ∈ fill_excel_template nowYear e1v info assets ∧
    ((⟨"C", 9 + i⟩, CellVal.str a.no) : Write)
        ∈ fill_excel_template nowYear e1v info assets ∧
    ((⟨"F", 9 + i⟩, ofOpt info.nama) : Write)
        ∈ fill_excel_template nowYear e1v info assets ∧
    ((⟨"G", 9 + i⟩, ofOpt info.jabatan) : Write)
        ∈ fill_excel_template nowYear e1v info assets := by
  obtain ⟨h1, h2, h3, h4, h5⟩ := assetRows_get info assets 0 i a h
  have e1 : 9 + 0 + i = 9 + i := by omega
  have e2 : 0 + i + 1 = i + 1 := by omega
  rw [e1, e2] at h1
  rw [e1] at h2 h3 h4 h5
  unfold fill_excel_template
  refine ⟨?_, ?_, ?_, ?_, ?_⟩ <;>
    · rw [List.mem_append, List.mem_append]
      tauto

theorem fill_header_once (nowYear : Nat) (e1v : Option String) (info : PersonInfo)
    (assets : List Asset) :
    ∀ c ∈ headerCells, ((fill_excel_template nowYear e1v info assets).filter
      (fun w => w.1 == c)).length ≤ 1 := by
  intro c hc
  have har : (assetRows info 0 assets).filter (fun w => w.1 == c) = [] := by
    rw [List.filter_eq_nil_iff]
    intro w hw
    have hnh := assetRows_not_header info assets w hw
    simp only [beq_iff_eq]
    intro he
    exact hnh (he ▸ hc)
  unfold fill_excel_template
  rw [List.filter_append, List.filter_append, har, List.append_nil]
  simp only [headerCells, List.mem_cons, List.not_mem_nil, or_false] at hc
  have hcase : e1Writes nowYear e1v info.timestamp = []
      ∨ ∃ s, e1Writes nowYear e1v info.timestamp = [(⟨"E", 1⟩, CellVal.str s)] := by
    rcases info.timestamp with _ | t
    · exact Or.inr ⟨_, rfl⟩
    · by_cases ht : t = ""
      · simp [e1Writes, ht]
      · simp [e1Writes, ht]
  rcases hc with hc | hc | hc | hc | hc <;> subst hc <;>
    rcases hcase with he | ⟨s, he⟩ <;> rw [he] <;> simp [List.filter_cons]

/-! ## Claim theorems -/

/-- Claim C1: for every input row, a slot contributes an item to the numbered
pass iff some column of that slot carries the id keywords and a non-empty,
non-whitespace value whose raw text does not start with `http` (category and
photo columns never influence inclusion); discovered slots are in strictly
ascending numeric order, and whenever the numbered pass produced anything the
extractor's output is exactly that slot-ordered list. -/
theorem claim_C1 (row : Row) :
    (numberedAssets row ≠ [] → extract_assets_from_row row = numberedAssets row)
    ∧ List.Chain' (· < ·) (discoverNums (row.map Prod.fst))
    ∧ ∀ n : Nat, (assetsForSlot row n).isSome = row.any (idContrib n) := by
  refine ⟨?_, discoverNums_chain _, fun n => assetsForSlot_isSome row n⟩
  intro h
  unfold extract_assets_from_row
  dsimp only
  cases hnum : numberedAssets row with
  | nil => exact absurd hnum h
  | cons a t => simp

/-- A row whose numbered columns appear out of numeric order. -/
def rowC1 : Row := [("No. Asset 2", some "B-2"), ("No. Asset 1", some "A-1")]

/-- Witness for C1: a concrete row where the numbered pass fires. -/
theorem claim_C1_witness :
    extract_assets_from_row rowC1 = numberedAssets rowC1 :=
  (claim_C1 rowC1).1 (by decide)

/-- Claim C2 (amended): on inputs whose normalized rows each hold the three
key columns exactly once — outside that domain the source crashes at the
frame-level `person_key` assignment and no groups are formed — two rows land
in the same group iff their concatenated `Nama_Divisi_Area` keys are
string-equal, with `Unknown` substituted only for a NaN value (exact field
match is sufficient but not necessary, since fields containing the `_`
separator can collide); a group's item list is the concatenation of its rows'
extractions in input order, and iteration visits keys in first-seen order. -/
theorem claim_C2_amended (rows : List Row) (k : String)
    (_hdom : ∀ row ∈ rows, hasKeyCols (normalizeRow row) = true) :
    (generate_excel_consolidated rows).map Prod.fst
      = firstSeen [] ((rows.map normalizeRow).map rowKey)
    ∧ ((generate_excel_consolidated rows).find? (fun kg => kg.1 == k))
      = (match (rows.map normalizeRow).filter (fun r => rowKey r == k) with
         | [] => none
         | r :: rs => some (k, ⟨personInfoOfRow r,
             (r :: rs).flatMap extract_assets_from_row⟩)) := by
  constructor
  · unfold generate_excel_consolidated
    rw [consol_keys]
    rfl
  · unfold generate_excel_consolidated
    rw [consol_find]
    simp only [List.find?_nil]
    cases hf : (rows.map normalizeRow).filter (fun r => rowKey r == k) with
    | nil => simp
    | cons r rs => simp

/-- Key-collision row: fields contain the separator. -/
def rowC2a : Row := [("Nama", some "a"), ("Divisi", some "b_c"), ("Area", some "d")]

/-- Second key-collision row with a different field triple. -/
def rowC2b : Row := [("Nama", some "a_b"), ("Divisi", some "c"), ("Area", some "d")]

/-- Counterexample to C2 as stated: the two rows' three key fields do not all
match (their divisions differ), yet they land in one single group, because
their concatenated keys coincide. -/
theorem claim_C2_counterexample :
    (generate_excel_consolidated [rowC2a, rowC2b]).length = 1
    ∧ keyField (normalizeRow rowC2a) "Divisi" ≠ keyField (normalizeRow rowC2b) "Divisi"
    ∧ rowKey (normalizeRow rowC2a) = rowKey (normalizeRow rowC2b) := by decide

/-- Witness for C2 (amended) on two concrete rows that carry each key column
exactly once. -/
theorem claim_C2_witness :
    (generate_excel_consolidated [rowC2a, rowC2b]).map Prod.fst
      = firstSeen [] (([rowC2a, rowC2b].map normalizeRow).map rowKey)
    ∧ ((generate_excel_consolidated [rowC2a, rowC2b]).find?
          (fun kg => kg.1 == "a_b_c_d"))
      = (match ([rowC2a, rowC2b].map normalizeRow).filter
            (fun r => rowKey r == "a_b_c_d") with
         | [] => none
         | r :: rs => some ("a_b_c_d", ⟨personInfoOfRow r,
             (r :: rs).flatMap extract_assets_from_row⟩)) :=
  claim_C2_amended [rowC2a, rowC2b] "a_b_c_d" (by decide)

/-- Claim C3: in an unambiguous header (each column contains at most one
anchor of the `Asset <N>` shape), a column is classified into at most one
(slot, attribute) pair — two assignments agree on both components — and the
word-boundary match never places an `Asset 12` column into slot 1. -/
theorem claim_C3 (columns : List String) (col : String) (n m : Nat) (a b : ItemAttr)
    (h0 : anchorCount none (lowerL col.data) ≤ 1)
    (h1 : assignedSlotAttr columns col n a) (h2 : assignedSlotAttr columns col m b) :
    n = m ∧ a = b ∧ slotMatchCol 1 "No. Asset 12" = false := by
  refine ⟨?_, ?_, by decide⟩
  · have hu := h1.2.1
    have hv := h2.2.1
    unfold slotMatchCol at hu hv
    exact natDigits_inj (slotSearch_unique (natDigits_ne_nil n) (natDigits_ne_nil m)
      (natDigits_isDigit n) (natDigits_isDigit m) (lowerL col.data) none h0 hu hv)
  · exact Option.some.inj (h1.2.2.symm.trans h2.2.2)

/-- Witness for C3 at the concrete column `No. Asset 12`. -/
theorem claim_C3_witness :
    12 = 12 ∧ ItemAttr.assetId = ItemAttr.assetId
      ∧ slotMatchCol 1 "No. Asset 12" = false :=
  claim_C3 ["No. Asset 12"] "No. Asset 12" 12 12 .assetId .assetId (by decide)
    (by refine ⟨by decide, by decide, by decide⟩)
    (by refine ⟨by decide, by decide, by decide⟩)

/-- The round-trip row of claim C4. -/
def row4 : Row :=
  [("Timestamp", some "1/2/2024 10:00"), ("Nama", some "Budi"), ("Divisi", some "IT"),
   ("Area", some "HQ"), ("No. Asset 1", some "A-100"), ("Jenis Asset 1", some "Laptop"),
   ("Upload Foto No. asset 1", some "http://x/1"), ("No. Asset 2", some "A-200"),
   ("Jenis Asset 2", some "Monitor")]

/-- Claim C4: the concrete round-trip — one group keyed `Budi_IT_HQ` whose
person info carries name Budi, division IT, area HQ, and whose items are
(1, A-100, Laptop, photo link) then (2, A-200, Monitor, no photo). -/
theorem claim_C4 :
    generate_excel_consolidated [row4]
      = [("Budi_IT_HQ",
          ⟨⟨some "1/2/2024 10:00", some "Budi", some "IT", some "HQ",
            some "Unknown", some "", some ""⟩,
           [⟨"A-100", "Laptop", "http://x/1"⟩, ⟨"A-200", "Monitor", ""⟩]⟩)] := by decide

/-- Claim C5: the projector writes exactly `k` item rows; the item at 0-based
index `i` occupies row `9 + i` with its 1-based sequence number in column A
and its category and id in columns B and C; every column-A write sits at some
row `9 + i` with `i < k` (no row skipped or reused); each header cell is
written at most once, and no item-row write ever targets a header cell. -/
theorem claim_C5 (nowYear : Nat) (e1v : Option String) (info : PersonInfo)
    (assets : List Asset) :
    ((fill_excel_template nowYear e1v info assets).filter
        (fun w => w.1.col == "A")).length = assets.length
    ∧ (∀ (i : Nat) (a : Asset), assets[i]? = some a →
        ((⟨"A", 9 + i⟩, CellVal.num (i + 1)) : Write)
            ∈ fill_excel_template nowYear e1v info assets
        ∧ ((⟨"B", 9 + i⟩, CellVal.str a.jenis) : Write)
            ∈ fill_excel_template nowYear e1v info assets
        ∧ ((⟨"C", 9 + i⟩, CellVal.str a.no) : Write)
            ∈ fill_excel_template nowYear e1v info assets)
    ∧ (∀ (r : Nat) (v : CellVal),
        ((⟨"A", r⟩, v) : Write) ∈ fill_excel_template nowYear e1v info assets →
          ∃ i, i < assets.length ∧ r = 9 + i ∧ v = .num (i + 1))
    ∧ (∀ c ∈ headerCells, ((fill_excel_template nowYear e1v info assets).filter
        (fun w => w.1 == c)).length ≤ 1)
    ∧ (∀ w ∈ assetRows info 0 assets, w.1 ∉ headerCells) := by
  refine ⟨fill_filterA nowYear e1v info assets, fun i a h => ?_,
    fun r v h => fill_A_mem nowYear e1v info assets r v h,
    fill_header_once nowYear e1v info assets, assetRows_not_header info assets⟩
  obtain ⟨h1, h2, h3, -, -⟩ := fill_block_mem nowYear e1v info assets i a h
  exact ⟨h1, h2, h3⟩

/-- Person info for the C5 witness. -/
def infoC5 : PersonInfo :=
  ⟨some "1/2/2024 10:00", some "Budi", some "IT", some "HQ", some "Unknown", some "", some ""⟩

/-- Assets for the C5 witness. -/
def assetsC5 : List Asset := [⟨"A-100", "Laptop", "http://x/1"⟩, ⟨"A-200", "Monitor", ""⟩]

/-- Witness for C5 on a two-item group. -/
theorem claim_C5_witness :
    ((fill_excel_template 2024 (some "Tahun ...") infoC5 assetsC5).filter
        (fun w => w.1.col == "A")).length = 2
    ∧ ((⟨"A", 10⟩, CellVal.num 2) : Write)
        ∈ fill_excel_template 2024 (some "Tahun ...") infoC5 assetsC5 := by
  have h := claim_C5 2024 (some "Tahun ...") infoC5 assetsC5
  exact ⟨by rw [h.1]; rfl, (h.2.1 1 ⟨"A-200", "Monitor", ""⟩ (by decide)).1⟩

/-- The fallback row of the C6 counterexample: a numbered id column with a NaN
value next to an unnumbered id column with a usable value. -/
def rowC6 : Row := [("No. Asset 1", none), ("No. Asset", some "X")]

/-- Counterexample to C6 as stated: `No. Asset 1` matches the numbered
`Asset N` pattern, yet the numbered pass yields nothing and the fallback runs
and produces an item. -/
theorem claim_C6_counterexample :
    searchAssetNum (lowerL ("No. Asset 1" : String).data) = some 1
    ∧ numberedAssets rowC6 = []
    ∧ extract_assets_from_row rowC6 = fallbackAssets rowC6
    ∧ fallbackAssets rowC6 = [⟨"X", "", ""⟩] := by decide

/-- Claim C6 (amended): the unnumbered fallback is applied iff the numbered
pass produced no assets (it can therefore run even when some column matches
the numbered pattern); the fallback yields at most one item, and each of its
three attributes comes from the first matching column in column order —
id needs a usable non-`http` value, category and photo only a non-NaN one. -/
theorem claim_C6_amended (row : Row) :
    (numberedAssets row = [] → extract_assets_from_row row = fallbackAssets row)
    ∧ (numberedAssets row ≠ [] → extract_assets_from_row row = numberedAssets row)
    ∧ fb_no row = (row.find? (fun cv => isFbIdCol cv.1 && usableId cv.2)).map
        (fun cv => strip ((cv.2).getD ""))
    ∧ fb_jenis row = (row.find? (fun cv =>
        (containsCI "jenis" cv.1 && containsCI "asset" cv.1) && (cv.2).isSome)).map
        (fun cv => strip ((cv.2).getD ""))
    ∧ fb_foto row = (row.find? (fun cv =>
        ((containsCI "upload" cv.1 || containsCI "foto" cv.1) && containsCI "asset" cv.1)
          && (cv.2).isSome)).map (fun cv => strip ((cv.2).getD ""))
    ∧ (fallbackAssets row).length ≤ 1 := by
  refine ⟨?_, ?_, fb_no_eq_find row, fb_jenis_eq_find row, fb_foto_eq_find row, ?_⟩
  · intro h
    unfold extract_assets_from_row
    dsimp only
    rw [h]
    rfl
  · intro h
    unfold extract_assets_from_row
    dsimp only
    cases hnum : numberedAssets row with
    | nil => exact absurd hnum h
    | cons a t => simp
  · cases h : fb_no row <;> simp [fallbackAssets, h]

/-- Witness for C6 on the concrete fallback row. -/
theorem claim_C6_witness :
    extract_assets_from_row rowC6 = fallbackAssets rowC6 :=
  (claim_C6_amended rowC6).1 (by decide)

/-- Claim C7: the group stored under a key carries the `PersonInfo` of the
first (normalized) row with that key — later rows only append items. -/
theorem claim_C7 (rows : List Row) (k : String) (kg : String × Group)
    (h : (generate_excel_consolidated rows).find? (fun kg => kg.1 == k) = some kg) :
    kg.2.info = personInfoOfRow
      (((rows.map normalizeRow).filter (fun r => rowKey r == k)).headD []) := by
  unfold generate_excel_consolidated at h
  rw [consol_find] at h
  simp only [List.find?_nil] at h
  cases hf : (rows.map normalizeRow).filter (fun r => rowKey r == k) with
  | nil =>
    rw [hf] at h
    simp at h
  | cons r rs =>
    rw [hf] at h
    simp only [List.head?_cons, Option.map_some'] at h
    have hkg := (Option.some.inj h).symm
    subst hkg
    simp

/-- First C7 witness row. -/
def rowC7a : Row :=
  [("Nama", some "X"), ("Divisi", some "D"), ("Area", some "HQ"), ("Dibuat Oleh", some "P1")]

/-- Second C7 witness row: same key, different `Dibuat Oleh`. -/
def rowC7b : Row :=
  [("Nama", some "X"), ("Divisi", some "D"), ("Area", some "HQ"), ("Dibuat Oleh", some "P2")]

/-- Witness for C7: the merged group keeps the first row's person info. -/
theorem claim_C7_witness :
    (("X_D_HQ", (⟨personInfoOfRow (normalizeRow rowC7a), []⟩ : Group)) : String × Group).2.info
      = personInfoOfRow ((([rowC7a, rowC7b].map normalizeRow).filter
          (fun r => rowKey r == "X_D_HQ")).headD []) :=
  claim_C7 [rowC7a, rowC7b] "X_D_HQ"
    ("X_D_HQ", ⟨personInfoOfRow (normalizeRow rowC7a), []⟩) (by decide)

/-- Modelled on the spec's wording for comparison with the code: the year
substituted into the template's year header cell — the last `/`-separated
component before the space for `/`-timestamps, the first `-`-separated
component for `-`-timestamps, and the current year when this parsing fails. -/
def specYearOfTimestamp (nowYear : Nat) (ts : String) : List Char :=
  if ts.data.contains '/' then
    (splitOnChar ' ' ((splitOnChar '/' ts.data).getLastD [])).headD []
  else if ts.data.contains '-' then
    (splitOnChar '-' ts.data).headD []
  else natDigits nowYear

/-- Claim C8: for a present non-empty timestamp, the one write to `E1`
replaces the `...` placeholder of the template's year cell with exactly the
year string the spec describes (current year when neither date shape parses). -/
theorem claim_C8 (nowYear : Nat) (e1v : Option String) (info : PersonInfo)
    (assets : List Asset) (ts : String) (h1 : info.timestamp = some ts) (h2 : ts ≠ "") :
    ((fill_excel_template nowYear e1v info assets).find? (fun w => w.1 == ⟨"E", 1⟩))
      = some (⟨"E", 1⟩,
          .str ⟨replaceDots (specYearOfTimestamp nowYear ts) (e1Base e1v)⟩) := by
  unfold fill_excel_template e1Writes
  rw [h1]
  dsimp only
  rw [if_neg h2]
  simp only [List.singleton_append, List.cons_append, List.find?_cons, beq_self_eq_true]
  rfl

/-- Person info for the C8 witness. -/
def infoC8 : PersonInfo :=
  ⟨some "1/2/2024 10:00", some "Budi", some "IT", some "HQ", some "Unknown", some "", some ""⟩

/-- Witness for C8: the slash-date timestamp puts `2024` into the year cell. -/
theorem claim_C8_witness :
    ((fill_excel_template 2025 (some "Tahun ...") infoC8 []).find?
        (fun w => w.1 == ⟨"E", 1⟩))
      = some (⟨"E", 1⟩, .str ⟨replaceDots (specYearOfTimestamp 2025 "1/2/2024 10:00")
          (e1Base (some "Tahun ..."))⟩) :=
  claim_C8 2025 (some "Tahun ...") infoC8 [] "1/2/2024 10:00" rfl (by decide)

/-- The rename chain of lines 487–501 as an ordered rule list. -/
def fieldRules : List ((String → Bool) × String) :=
  [(fun c => containsCI "timestamp" c, "Timestamp"),
   (fun c => containsCI "nama" c && !containsCI "jenis" c, "Nama"),
   (fun c => containsCI "divisi" c, "Divisi"),
   (fun c => containsCI "area" c, "Area"),
   (fun c => strip ⟨lowerL c.data⟩ == "pic", "PIC"),
   (fun c => containsCI "dibuat" c && containsCI "oleh" c, "Dibuat Oleh"),
   (fun c => containsCI "jabatan" c, "Jabatan")]

/-- The first matching rule's canonical field name, if any. -/
def applyFieldRules (col : String) : Option String :=
  (fieldRules.find? (fun rule => rule.1 col)).map Prod.snd

/-- Claim C9 (amended): each column name is assigned to at most one recognized
field — the rename chain equals first-match evaluation of the ordered rule
list — but a field may receive several distinct columns (see the
counterexample), so the per-field uniqueness of the original claim fails. -/
theorem claim_C9_amended (col : String) :
    renameCol col = (applyFieldRules col).getD col := by
  unfold renameCol applyFieldRules fieldRules
  by_cases h1 : containsCI "timestamp" col = true
  · simp [List.find?_cons, h1]
  · have h1' := bool_eq_false h1
    by_cases h2 : (containsCI "nama" col && !containsCI "jenis" col) = true
    · simp [List.find?_cons, h1', h2]
    · have h2' := bool_eq_false h2
      by_cases h3 : containsCI "divisi" col = true
      · simp [List.find?_cons, h1', h2', h3]
      · have h3' := bool_eq_false h3
        by_cases h4 : containsCI "area" col = true
        · simp [List.find?_cons, h1', h2', h3', h4]
        · have h4' := bool_eq_false h4
          by_cases h5 : strip ⟨lowerL col.data⟩ = "pic"
          · simp [List.find?_cons, h1', h2', h3', h4', h5]
          · have h5' : (strip ⟨lowerL col.data⟩ == "pic") = false :=
              beq_eq_false_iff_ne.mpr h5
            by_cases h6 : (containsCI "dibuat" col && containsCI "oleh" col) = true
            · simp [List.find?_cons, h1', h2', h3', h4', h5, h5', h6]
            · have h6' := bool_eq_false h6
              by_cases h7 : containsCI "jabatan" col = true
              · simp [List.find?_cons, h1', h2', h3', h4', h5, h5', h6', h7]
              · have h7' := bool_eq_false h7
                simp [List.find?_cons, h1', h2', h3', h4', h5, h5', h6', h7']

/-- Counterexample to C9 as stated: two distinct column names both match the
name keywords, so the Name field is mapped to two columns of the row rather
than at most one. -/
theorem claim_C9_counterexample :
    renameCol "Nama" = "Nama" ∧ renameCol "Nama Lengkap" = "Nama"
    ∧ ("Nama" : String) ≠ "Nama Lengkap"
    ∧ (([("Nama" : String), "Nama Lengkap"]).map renameCol).count "Nama" = 2 := by decide

/-- Person info with a missing (NaN) timestamp for the C10 counterexample. -/
def infoC10 : PersonInfo := ⟨none, none, none, none, none, none, none⟩

/-- Counterexample to C10 as stated: a missing (NaN) timestamp is truthy in
the source and the failed string test lands in the fallback, so `E1` is
rewritten with the current year rather than left unchanged. -/
theorem claim_C10_counterexample :
    ((⟨⟨"E", 1⟩, CellVal.str "Tahun 2026"⟩ : Write)
        ∈ fill_excel_template 2026 (some "Tahun ...") infoC10 [])
    ∧ infoC10.timestamp = none := by decide

/-- Claim C10 (amended): only the empty-string timestamp leaves the template's
`E1` year cell untouched — no write in the projection targets `E1`. -/
theorem claim_C10_amended (nowYear : Nat) (e1v : Option String) (info : PersonInfo)
    (assets : List Asset) (h : info.timestamp = some "") :
    ((fill_excel_template nowYear e1v info assets).find?
      (fun w => w.1 == ⟨"E", 1⟩)) = none := by
  unfold fill_excel_template e1Writes
  rw [h]
  dsimp only
  rw [if_pos rfl]
  apply List.find?_eq_none.mpr
  intro w hw
  rw [List.nil_append] at hw
  rcases List.mem_append.mp hw with hw | hw
  · simp only [List.mem_cons, List.not_mem_nil, or_false] at hw
    rcases hw with rfl | rfl | rfl | rfl <;> simp
  · simp only [beq_iff_eq]
    intro he
    obtain ⟨hcol, -⟩ := assetRows_shape info assets 0 w hw
    rw [he] at hcol
    simp at hcol

/-- Person info with an empty-string timestamp for the C10 witness. -/
def infoC10w : PersonInfo := ⟨some "", none, none, none, none, none, none⟩

/-- Witness for C10 (amended): the empty timestamp never writes `E1`. -/
theorem claim_C10_witness :
    ((fill_excel_template 2026 (some "Tahun ...") infoC10w []).find?
      (fun w => w.1 == ⟨"E", 1⟩)) = none :=
  claim_C10_amended 2026 (some "Tahun ...") infoC10w [] rfl

end FormGen
